import Mathlib

/-!
Verification of the signal-to-order decision engine of the XGBoost trading
bot repository.  The development shallowly embeds the two stateful variants
of the position lifecycle manager:

* the offline backtest loop of `src/backtest.py` (capital pool, unkeyed
  position list, stop-loss / take-profit / signal-reversal exits, forced
  end-of-data close), and
* the live polling loop of `src/bot.py` (per-symbol dictionaries
  `active_trades` and `cooldown_tracker`, entry/exit logic, cooldown gate,
  max-trade cap, trade-log appends) together with the order-gateway wrapper
  of `src/alpaca_api.py`, whose `submit_order` / `close_position` swallow
  all exceptions and report failure through their return value.

Prices, probabilities, model returns, cash and times are embedded as
rationals; the trading quantity is an integer obtained by floor division
exactly as in the Python source.  Side effects (order submissions and
trade-log appends) are reified as an event trace, and each per-symbol step
of the live loop is a fallible function returning `Except`, mirroring
which Python statements can raise past the per-symbol handling.
-/

namespace TradingBot

/-! ## Backtest embedding (`src/backtest.py`) -/

/-- Configuration constants of `backtest.py` lifted to parameters:
`clf_threshold`, `reg_threshold`, `STOP_LOSS_PCT`, `TAKE_PROFIT_PCT`,
`INITIAL_CAPITAL`, `POSITION_SIZE_PCT`. -/
structure BConfig where
  clfThreshold : ℚ
  regThreshold : ℚ
  stopLossPct : ℚ
  takeProfitPct : ℚ
  initialCapital : ℚ
  positionSizePct : ℚ
deriving DecidableEq

/-- The literal constants of `backtest.py`: 0.58, 0.002, 0.06, 0.1, 100, 0.2. -/
def btConfig : BConfig :=
  { clfThreshold := 29/50, regThreshold := 1/500, stopLossPct := 3/50,
    takeProfitPct := 1/10, initialCapital := 100, positionSizePct := 1/5 }

/-- One open position of the backtest loop (`positions` list elements). -/
structure BPosition where
  entry_index : ℕ
  entry_price : ℚ
  direction : String
  capital_allocated : ℚ
deriving DecidableEq

/-- One row appended to `trades` on every exit. -/
structure BTradeRec where
  entry_index : ℕ
  exit_index : ℕ
  entry_price : ℚ
  exit_price : ℚ
  direction : String
  retChange : ℚ
  capital_allocated : ℚ
  profit_loss : ℚ
  reason : String
deriving DecidableEq

/-- One input row of the backtest: `prices[i]`, `clf_probs[i]`, `reg_preds[i]`. -/
structure Row where
  price : ℚ
  prob : ℚ
  predReturn : ℚ
deriving DecidableEq

/-- The mutable state of the backtest loop: `capital`, `positions`, `trades`. -/
structure BState where
  capital : ℚ
  positions : List BPosition
  trades : List BTradeRec
deriving DecidableEq

/-- `change` as computed per open position in `backtest.py` (lines 42-45):
`(price - entry_price) / entry_price` for a long position and
`(entry_price - price) / entry_price` otherwise. -/
def bChange (direction : String) (entry_price price : ℚ) : ℚ :=
  if direction = "long" then (price - entry_price) / entry_price
  else (entry_price - price) / entry_price

/-- The exit decision of `backtest.py` (lines 47-72) for one open position:
stop-loss and take-profit comparisons per direction, then the
signal-reversal check guarded by `not exit_trade`.  Returns the `reason`
when `exit_trade` ends up true and `none` when the position is kept. -/
def bExitReason (cfg : BConfig) (direction : String) (change prob predReturn : ℚ) :
    Option String :=
  if direction = "long" then
    if change ≤ -cfg.stopLossPct then some "stop_loss"
    else if change ≥ cfg.takeProfitPct then some "take_profit"
    else if prob < 1 - cfg.clfThreshold ∧ predReturn < -cfg.regThreshold then
      some "signal_reverse"
    else none
  else
    if change ≥ cfg.stopLossPct then some "stop_loss"
    else if change ≤ -cfg.takeProfitPct then some "take_profit"
    else if direction = "short" ∧ prob > cfg.clfThreshold ∧ predReturn > cfg.regThreshold then
      some "signal_reverse"
    else none

/-- Processing of one open position inside the per-row loop of
`backtest.py` (lines 36-90): either the position exits (capital gets back
`capital_allocated + profit_loss` and a trade row is appended) or it is
carried over into `still_open_positions`, accumulated here in
`s.positions`. -/
def bStepPosition (cfg : BConfig) (i : ℕ) (row : Row) (s : BState)
    (position : BPosition) : BState :=
  let change := bChange position.direction position.entry_price row.price
  match bExitReason cfg position.direction change row.prob row.predReturn with
  | some reason =>
      let profit_loss := position.capital_allocated * change
      { capital := s.capital + position.capital_allocated + profit_loss
        positions := s.positions
        trades := s.trades ++
          [{ entry_index := position.entry_index, exit_index := i,
             entry_price := position.entry_price, exit_price := row.price,
             direction := position.direction, retChange := change,
             capital_allocated := position.capital_allocated,
             profit_loss := profit_loss, reason := reason }] }
  | none => { s with positions := s.positions ++ [position] }

/-- The exit pass of one row: fold the current `positions` through
`bStepPosition`, starting from an empty `still_open_positions` list
(`positions = still_open_positions` at line 92). -/
def bProcessExits (cfg : BConfig) (i : ℕ) (row : Row) (s : BState) : BState :=
  s.positions.foldl (bStepPosition cfg i row) { s with positions := [] }

/-- The entry pass of one row (`backtest.py` lines 94-114): long entry when
`prob > clf_threshold and pred_return > reg_threshold`, otherwise short
entry when `prob < 0.25 and pred_return < -0.0065`; in either case a fifth
of the capital pool is allocated when positive. -/
def bEntry (cfg : BConfig) (i : ℕ) (row : Row) (s : BState) : BState :=
  if row.prob > cfg.clfThreshold ∧ row.predReturn > cfg.regThreshold then
    let capital_to_use := s.capital * cfg.positionSizePct
    if capital_to_use > 0 then
      { s with capital := s.capital - capital_to_use,
               positions := s.positions ++
                 [{ entry_index := i, entry_price := row.price,
                    direction := "long", capital_allocated := capital_to_use }] }
    else s
  else if row.prob < 1/4 ∧ row.predReturn < -(13/2000) then
    let capital_to_use := s.capital * cfg.positionSizePct
    if capital_to_use > 0 then
      { s with capital := s.capital - capital_to_use,
               positions := s.positions ++
                 [{ entry_index := i, entry_price := row.price,
                    direction := "short", capital_allocated := capital_to_use }] }
    else s
  else s

/-- One iteration of `for i in range(len(df))`: exits first, then entries. -/
def bStepRow (cfg : BConfig) (i : ℕ) (row : Row) (s : BState) : BState :=
  bEntry cfg i row (bProcessExits cfg i row s)

/-- The main backtest loop over the remaining rows, starting at index `i`. -/
def bRunFrom (cfg : BConfig) : ℕ → List Row → BState → BState
  | _, [], s => s
  | i, row :: rest, s => bRunFrom cfg (i + 1) rest (bStepRow cfg i row s)

/-- The forced end-of-data close (`backtest.py` lines 116-135): every
position still open is closed at `final_price` with reason `end_of_data`.
The Python loop only reads `positions`, so the list itself is left as is. -/
def bFinalStep (lastIndex : ℕ) (final_price : ℚ) (s : BState) :
    BState :=
  s.positions.foldl
    (fun acc position =>
      let ret := bChange position.direction position.entry_price final_price
      let profit_loss := position.capital_allocated * ret
      { acc with
        capital := acc.capital + position.capital_allocated + profit_loss
        trades := acc.trades ++
          [{ entry_index := position.entry_index, exit_index := lastIndex,
             entry_price := position.entry_price, exit_price := final_price,
             direction := position.direction, retChange := ret,
             capital_allocated := position.capital_allocated,
             profit_loss := profit_loss, reason := "end_of_data" }] })
    s

/-- The initial backtest state: `capital = INITIAL_CAPITAL`, no positions,
no trades. -/
def bInitState (cfg : BConfig) : BState :=
  { capital := cfg.initialCapital, positions := [], trades := [] }

/-- The whole backtest: main loop over all rows followed by the forced
close at the last available price (`prices[-1]`); on an empty input the
Python script would fault before trading, so no forced close happens. -/
def bRun (cfg : BConfig) (rows : List Row) : BState :=
  let s := bRunFrom cfg 0 rows (bInitState cfg)
  match rows.getLast? with
  | some lastRow => bFinalStep (rows.length - 1) lastRow.price s
  | none => s

/-- Total capital currently allocated to a list of open positions. -/
def sumAlloc (positions : List BPosition) : ℚ :=
  (positions.map (fun p => p.capital_allocated)).sum

/-- Total profit and loss booked over a list of trade rows. -/
def sumPL (trades : List BTradeRec) : ℚ :=
  (trades.map (fun t => t.profit_loss)).sum

/-- The conserved quantity of the backtest: free capital plus capital
locked in open positions minus the profit and loss already booked. -/
def bMeasure (s : BState) : ℚ :=
  s.capital + sumAlloc s.positions - sumPL s.trades

/-- The booked part of the pool: free capital minus booked profit and
loss.  The forced close leaves the `positions` list in place, so the
preserved quantity there excludes the allocations. -/
def bBooked (s : BState) : ℚ := s.capital - sumPL s.trades

/-! ## Live-loop embedding (`src/bot.py` with the gateway wrapper of
`src/alpaca_api.py`)

The two module-level dictionaries `active_trades` and `cooldown_tracker`
are embedded as association lists with Python-dict semantics: lookup of
the first matching key, in-place replacement on re-assignment, removal on
`pop`.  Keys stay distinct under these operations, which is the
at-most-one-record-per-symbol property of a dict. -/

/-- Python-dict lookup `d.get(k)`. -/
def alookup {α : Type} : List (String × α) → String → Option α
  | [], _ => none
  | (k, v) :: rest, key => if k = key then some v else alookup rest key

/-- Python-dict assignment `d[k] = v`: replace in place or append. -/
def ainsert {α : Type} : List (String × α) → String → α → List (String × α)
  | [], key, v => [(key, v)]
  | (k, w) :: rest, key, v =>
      if k = key then (k, v) :: rest else (k, w) :: ainsert rest key v

/-- Python-dict removal `d.pop(k, None)`. -/
def aerase {α : Type} : List (String × α) → String → List (String × α)
  | [], _ => []
  | (k, w) :: rest, key => if k = key then rest else (k, w) :: aerase rest key

/-- Occurrences of a symbol among the keys of the store. -/
def keyCount {α : Type} : List (String × α) → String → ℕ
  | [], _ => 0
  | (k, _) :: rest, key => (if k = key then 1 else 0) + keyCount rest key

/-- Configuration of the live loop: the `run_trading_bot` parameters
`clf_threshold` / `reg_threshold` and the module constants
`STOP_LOSS_PCT`, `TAKE_PROFIT_PCT`, `COOLDOWN_MINUTES`, `MAX_TRADES`. -/
structure BotConfig where
  clfThreshold : ℚ
  regThreshold : ℚ
  stopLossPct : ℚ
  takeProfitPct : ℚ
  cooldownMinutes : ℚ
  maxTrades : ℕ
deriving DecidableEq

/-- The literal values of `bot.py`: defaults 0.58 and 0.002, stop loss
0.06, take profit 0.1, cooldown 0 minutes, at most 1000 trades. -/
def liveConfig : BotConfig :=
  { clfThreshold := 29/50, regThreshold := 1/500, stopLossPct := 3/50,
    takeProfitPct := 1/10, cooldownMinutes := 0, maxTrades := 1000 }

/-- One `active_trades[symbol]` record. -/
structure LiveTrade where
  entry_price : ℚ
  qty : ℤ
  direction : String
  entry_time : ℚ
deriving DecidableEq

/-- One row appended to `trade_log.csv` by `log_trade`. -/
structure LiveRec where
  symbol : String
  action : String
  price : ℚ
  qty : ℤ
  reason : String
  direction : String
deriving DecidableEq

/-- The observable side effects of one cycle, in program order: calls into
the order gateway (`submit_order` / `close_position`, which report failure
through their result because `alpaca_api.py` swallows every exception) and
appends to the trade log. -/
inductive Event where
  | submitOrder (symbol : String) (qty : ℤ) (side : String) (ok : Bool)
  | closeReq (symbol : String) (ok : Bool)
  | append (rec : LiveRec)
deriving DecidableEq

/-- The exceptions that can escape the per-symbol code of the loop body
and reach the cycle-level handler: a missing model feature raises a
`KeyError` at `latest[expected_columns]` (or inside `predict`), and a
missing price raises a `TypeError` at `price - entry_price` in the exit
branch.  The unbound-`reason` case is the `NameError` Python would raise
for a position whose direction is neither long nor short. -/
inductive BotError where
  | featureMismatch
  | exitPriceMissing
  | unboundReason
deriving DecidableEq

/-- The per-symbol, per-cycle snapshot the loop body obtains from its
collaborators before deciding: whether historical bars and built features
were available and non-empty, whether the model's expected columns were
present, the classifier probability and regressor prediction, the latest
price (absent when the fetch failed), whether the broker reports the
symbol among open positions, and whether the order gateway accepts an
order this cycle. -/
structure SymbolData where
  histOk : Bool
  featuresOk : Bool
  prob : ℚ
  predReturn : ℚ
  price : Option ℚ
  inBrokerPositions : Bool
  submitOk : Bool
deriving DecidableEq

/-- The module-level mutable state of `bot.py`. -/
structure BotState where
  active_trades : List (String × LiveTrade)
  cooldown_tracker : List (String × ℚ)
deriving DecidableEq

/-- The cooldown gate (`bot.py` line 101): the symbol is skipped while
`symbol in cooldown_tracker and now < cooldown_tracker[symbol]`. -/
def cooldownActive (st : BotState) (now : ℚ) (symbol : String) : Bool :=
  match alookup st.cooldown_tracker symbol with
  | some untilTime => decide (now < untilTime)
  | none => false

/-- Position sizing (`bot.py` line 142): `int((cash * 0.1) //
current_price)`, floor division by the current price of a tenth of the
cash balance. -/
def liveQty (cash current_price : ℚ) : ℤ :=
  ⌊cash * (1/10) / current_price⌋

/-- The entry signal of the live loop (`bot.py` lines 147 and 159): long
when `prob > clf_threshold and pred_return > reg_threshold`, otherwise
short when `prob < 0.25 and pred_return < -0.0065`, otherwise nothing.
The long branch is tested first. -/
def liveEntrySignal (cfg : BotConfig) (prob predReturn : ℚ) : String :=
  if prob > cfg.clfThreshold ∧ predReturn > cfg.regThreshold then "long"
  else if prob < 1/4 ∧ predReturn < -(13/2000) then "short"
  else "none"

/-- The exit decision of the live loop (`bot.py` lines 177-190): for a
long position stop loss at `change <= -STOP_LOSS_PCT` then take profit at
`change >= TAKE_PROFIT_PCT`; for a short position the same two checks on
the mirrored signs of the same `change = (price - entry_price) /
entry_price`.  `none` is the `continue` (hold). -/
def liveExitReason (cfg : BotConfig) (direction : String) (change : ℚ) :
    Option String :=
  if direction = "long" then
    if change ≤ -cfg.stopLossPct then some "long_stop_loss"
    else if change ≥ cfg.takeProfitPct then some "long_take_profit"
    else none
  else
    if change ≥ cfg.stopLossPct then some "short_stop_loss"
    else if change ≤ -cfg.takeProfitPct then some "short_take_profit"
    else none

/-- The entry branch (`bot.py` lines 134-168), reached when the symbol is
not active.  A missing price is caught by the inner handler and the
symbol is skipped.  Then the quantity guard, then the long / short signal
tests; an entry submits the order, records the position in
`active_trades` and appends the trade-log row — in that order and
regardless of the gateway's result, which `bot.py` never inspects. -/
def entryStep (cfg : BotConfig) (now cash : ℚ) (symbol : String)
    (data : SymbolData) (st : BotState) : BotState × List Event :=
  match data.price with
  | none => (st, [])
  | some current_price =>
      let qty := liveQty cash current_price
      if qty ≤ 0 then (st, [])
      else if liveEntrySignal cfg data.prob data.predReturn = "long" then
        ({ active_trades := ainsert st.active_trades symbol
             { entry_price := current_price, qty := qty, direction := "long",
               entry_time := now },
           cooldown_tracker := st.cooldown_tracker },
         [Event.submitOrder symbol qty "buy" data.submitOk,
          Event.append { symbol := symbol, action := "buy",
                         price := current_price, qty := qty,
                         reason := "long_entry", direction := "long" }])
      else if liveEntrySignal cfg data.prob data.predReturn = "short" then
        ({ active_trades := ainsert st.active_trades symbol
             { entry_price := current_price, qty := qty, direction := "short",
               entry_time := now },
           cooldown_tracker := st.cooldown_tracker },
         [Event.submitOrder symbol qty "sell" data.submitOk,
          Event.append { symbol := symbol, action := "sell",
                         price := current_price, qty := qty,
                         reason := "short_entry", direction := "short" }])
      else (st, [])

/-- The exit branch (`bot.py` lines 171-196), reached when the symbol is
active.  `change` is computed from the fetched price (raising past the
symbol when the price is absent), the per-direction stop-loss /
take-profit decision picks a reason or holds, and an exit requests the
close, appends the trade-log row, removes the position and starts the
cooldown — again regardless of the gateway's result. -/
def exitStep (cfg : BotConfig) (now : ℚ) (symbol : String)
    (data : SymbolData) (trade : LiveTrade) (st : BotState) :
    Except BotError (BotState × List Event) :=
  match data.price with
  | none => .error .exitPriceMissing
  | some price =>
      let change := (price - trade.entry_price) / trade.entry_price
      if trade.direction = "long" ∨ trade.direction = "short" then
        match liveExitReason cfg trade.direction change with
        | none => .ok (st, [])
        | some reason =>
            .ok ({ active_trades := aerase st.active_trades symbol,
                   cooldown_tracker := ainsert st.cooldown_tracker symbol
                     (now + cfg.cooldownMinutes) },
                 [Event.closeReq symbol data.submitOk,
                  Event.append { symbol := symbol, action := "close",
                                 price := price, qty := trade.qty,
                                 reason := reason,
                                 direction := trade.direction }])
      else .error .unboundReason

/-- One symbol's slice of the cycle (`bot.py` lines 97-196): the cooldown
gate, the max-trades cap, the data and feature guards, then entry or exit
depending on `is_active = symbol in position_symbols and trade is not
None`. -/
def symbolStep (cfg : BotConfig) (now cash : ℚ) (symbol : String)
    (data : SymbolData) (st : BotState) :
    Except BotError (BotState × List Event) :=
  if cooldownActive st now symbol then .ok (st, [])
  else if st.active_trades.length ≥ cfg.maxTrades ∧
      alookup st.active_trades symbol = none then .ok (st, [])
  else if data.histOk = false then .ok (st, [])
  else if data.featuresOk = false then .error .featureMismatch
  else
    match alookup st.active_trades symbol with
    | some trade =>
        if data.inBrokerPositions then exitStep cfg now symbol data trade st
        else .ok (entryStep cfg now cash symbol data st)
    | none => .ok (entryStep cfg now cash symbol data st)

/-- The outcome of one polling cycle: the state after the cycle, the side
effects that happened, and the exception (if any) that aborted the rest of
the cycle and was caught by the cycle-level handler of `bot.py`
(lines 200-202), which logs it and sleeps instead of terminating. -/
structure CycleOutcome where
  state : BotState
  events : List Event
  err : Option BotError
deriving DecidableEq

/-- The `for symbol in watchlist` loop of one cycle.  An exception raised
while processing one symbol stops this loop, keeping the state and the
side effects produced so far; later symbols are not reached in that
cycle.  The function always returns: the cycle-level handler catches
every exception, so the process never terminates. -/
def processSymbols (cfg : BotConfig) (now cash : ℚ) :
    List (String × SymbolData) → BotState → CycleOutcome
  | [], st => { state := st, events := [], err := none }
  | (symbol, data) :: rest, st =>
      match symbolStep cfg now cash symbol data st with
      | .error e => { state := st, events := [], err := some e }
      | .ok (st1, ev) =>
          let out := processSymbols cfg now cash rest st1
          { state := out.state, events := ev ++ out.events, err := out.err }

/-! ## Batch strategy evaluation (`src/combined_strategy.py`) -/

/-- The long mask (`combined_strategy.py` lines 85-87): probability above
the hard-coded 0.58 and predicted return above 0.002. -/
def cs_long_mask (prob predReturn : ℚ) : Bool :=
  decide (prob > 29/50) && decide (predReturn > 1/500)

/-- The short mask (`combined_strategy.py` lines 90-92): probability below
the hard-coded 0.25 and predicted return below -0.0065. -/
def cs_short_mask (prob predReturn : ℚ) : Bool :=
  decide (prob < 1/4) && decide (predReturn < -(13/2000))

/-- The per-row direction resolution (`combined_strategy.py` lines
98-100): the array starts at `none`, rows in the long mask are set to
`long`, and rows in the short mask are then overwritten to `short`.  The
final value of a row is therefore `short` whenever its short mask is set,
regardless of its long mask. -/
def cs_direction (longMask shortMask : Bool) : String :=
  if shortMask then "short" else if longMask then "long" else "none"

/-- The direction `combined_strategy.py` computes for one row from the
row's probability and predicted return. -/
def cs_directionAt (prob predReturn : ℚ) : String :=
  cs_direction (cs_long_mask prob predReturn) (cs_short_mask prob predReturn)

/-- The specification's exit rule for a short position, written from the
spec sentence: `change = (entry_price - current_price) / entry_price`,
stop-loss exactly when `change <= -stop_loss_pct`, take-profit exactly
when `change >= take_profit_pct` (refinement target for the backtest's
short branch). -/
def specShortExitReason (stopLossPct takeProfitPct : ℚ) (change : ℚ) :
    Option String :=
  if change ≤ -stopLossPct then some "stop_loss"
  else if change ≥ takeProfitPct then some "take_profit"
  else none

/-! ## Concrete cycle snapshots used to evaluate the embedded loop -/

/-- A symbol whose cycle data triggers a long entry: everything available,
probability 0.6 above the 0.58 threshold, predicted return 0.01 above
0.002, price 100, not held at the broker, gateway accepting. -/
def dGoodLong : SymbolData :=
  { histOk := true, featuresOk := true, prob := 3/5, predReturn := 1/100,
    price := some 100, inBrokerPositions := false, submitOk := true }

/-- The same long-entry cycle data, but the order gateway fails the
submission (`submit_order` returns `None`). -/
def dGoodLongFail : SymbolData :=
  { histOk := true, featuresOk := true, prob := 3/5, predReturn := 1/100,
    price := some 100, inBrokerPositions := false, submitOk := false }

/-- Cycle data whose feature row is missing an expected model column, so
evaluating the symbol raises. -/
def dFeatureBad : SymbolData :=
  { histOk := true, featuresOk := false, prob := 0, predReturn := 0,
    price := some 100, inBrokerPositions := false, submitOk := true }

/-- Cycle data for a symbol held at the broker whose price fell 8% below
the entry price of 100: with the held long position of `tradeLongAt100`
the long stop loss fires; the gateway fails the close. -/
def dStopLossFailClose : SymbolData :=
  { histOk := true, featuresOk := true, prob := 1/2, predReturn := 0,
    price := some 92, inBrokerPositions := true, submitOk := false }

/-- A long position opened at price 100 for one share at time 0. -/
def tradeLongAt100 : LiveTrade :=
  { entry_price := 100, qty := 1, direction := "long", entry_time := 0 }

/-- A configuration whose long thresholds overlap the hard-coded short
thresholds of the entry logic (`run_trading_bot` takes `clf_threshold`
and `reg_threshold` as parameters), so that the long and short entry
conditions can hold simultaneously. -/
def tieConfig : BotConfig :=
  { clfThreshold := 1/5, regThreshold := -(1/100), stopLossPct := 3/50,
    takeProfitPct := 1/10, cooldownMinutes := 0, maxTrades := 1000 }

/-- The ledger discipline of an event trace: it is a sequence of
submission/append pairs — every trade-log row is appended immediately
after its own order submission returns (matching symbol, action and
quantity for entries; matching symbol and the `close` action for exits),
and in particular every submission that returns success is followed by
exactly one matching row, in submission order. -/
inductive LedgerOk : List Event → Prop where
  | nil : LedgerOk []
  | entryPair (symbol : String) (qty : ℤ) (side : String) (ok : Bool)
      (r : LiveRec) (rest : List Event) :
      r.symbol = symbol → r.action = side → r.qty = qty →
      LedgerOk rest →
      LedgerOk (Event.submitOrder symbol qty side ok ::
        Event.append r :: rest)
  | closePair (symbol : String) (ok : Bool) (r : LiveRec)
      (rest : List Event) :
      r.symbol = symbol → r.action = "close" →
      LedgerOk rest →
      LedgerOk (Event.closeReq symbol ok :: Event.append r :: rest)

lemma sumAlloc_append (l₁ l₂ : List BPosition) :
    sumAlloc (l₁ ++ l₂) = sumAlloc l₁ + sumAlloc l₂ := by
  simp [sumAlloc]

lemma sumPL_append (l₁ l₂ : List BTradeRec) :
    sumPL (l₁ ++ l₂) = sumPL l₁ + sumPL l₂ := by
  simp [sumPL]

/-- Closing a position returns `capital_allocated * (1 + change)` to the
pool and books `capital_allocated * change`; keeping it just moves the
allocation along: in both branches the measure grows by exactly the
processed position's allocation. -/
lemma bMeasure_bStepPosition (cfg : BConfig) (i : ℕ) (row : Row) (s : BState)
    (position : BPosition) :
    bMeasure (bStepPosition cfg i row s position) =
      bMeasure s + position.capital_allocated := by
  unfold bStepPosition
  cases hE : bExitReason cfg position.direction
      (bChange position.direction position.entry_price row.price)
      row.prob row.predReturn with
  | none => simp [hE, bMeasure, sumAlloc_append, sumAlloc]; ring
  | some reason => simp [hE, bMeasure, sumPL_append, sumPL]; ring

lemma bMeasure_foldl_exits (cfg : BConfig) (i : ℕ) (row : Row) :
    ∀ (l : List BPosition) (acc : BState),
      bMeasure (l.foldl (bStepPosition cfg i row) acc) =
        bMeasure acc + sumAlloc l := by
  intro l
  induction l with
  | nil => intro acc; simp [sumAlloc]
  | cons position rest ih =>
      intro acc
      simp only [List.foldl_cons, ih, bMeasure_bStepPosition]
      simp [sumAlloc]
      ring

lemma bMeasure_bProcessExits (cfg : BConfig) (i : ℕ) (row : Row) (s : BState) :
    bMeasure (bProcessExits cfg i row s) = bMeasure s := by
  unfold bProcessExits
  rw [bMeasure_foldl_exits]
  simp [bMeasure, sumAlloc]
  ring

lemma bMeasure_bEntry (cfg : BConfig) (i : ℕ) (row : Row) (s : BState) :
    bMeasure (bEntry cfg i row s) = bMeasure s := by
  unfold bEntry
  split
  · dsimp only
    split
    · simp [bMeasure, sumAlloc_append, sumAlloc]
    · rfl
  · split
    · dsimp only
      split
      · simp [bMeasure, sumAlloc_append, sumAlloc]
      · rfl
    · rfl

lemma bMeasure_bStepRow (cfg : BConfig) (i : ℕ) (row : Row) (s : BState) :
    bMeasure (bStepRow cfg i row s) = bMeasure s := by
  unfold bStepRow
  rw [bMeasure_bEntry, bMeasure_bProcessExits]

lemma bMeasure_bRunFrom (cfg : BConfig) :
    ∀ (rows : List Row) (i : ℕ) (s : BState),
      bMeasure (bRunFrom cfg i rows s) = bMeasure s := by
  intro rows
  induction rows with
  | nil => intro i s; rfl
  | cons row rest ih =>
      intro i s
      rw [bRunFrom, ih, bMeasure_bStepRow]

lemma bBooked_bFinalStep (lastIndex : ℕ) (final_price : ℚ) :
    ∀ (l : List BPosition) (acc : BState),
      bBooked ((l.foldl (fun acc position =>
        let ret := bChange position.direction position.entry_price final_price
        let profit_loss := position.capital_allocated * ret
        { acc with
          capital := acc.capital + position.capital_allocated + profit_loss
          trades := acc.trades ++
            [{ entry_index := position.entry_index, exit_index := lastIndex,
               entry_price := position.entry_price, exit_price := final_price,
               direction := position.direction, retChange := ret,
               capital_allocated := position.capital_allocated,
               profit_loss := profit_loss, reason := "end_of_data" }] }) acc)) =
      bBooked acc + sumAlloc l := by
  intro l
  induction l with
  | nil => intro acc; simp [sumAlloc]
  | cons position rest ih =>
      intro acc
      simp only [List.foldl_cons, ih]
      simp [bBooked, sumPL_append, sumPL, sumAlloc]
      ring

/-- C10: in the backtest, capital is conserved exactly: every entry
subtracts its allocation from the pool, every exit (including the forced
end-of-data close) adds back exactly `capital_allocated * (1 + change)`,
each position is closed at most once, and the final capital equals
`INITIAL_CAPITAL` plus the sum of `profit_loss` over all recorded
trades. -/
theorem c10_backtest_capital_conservation (cfg : BConfig) (rows : List Row) :
    (bRun cfg rows).capital = cfg.initialCapital + sumPL (bRun cfg rows).trades := by
  have hMain : bMeasure (bRunFrom cfg 0 rows (bInitState cfg)) =
      cfg.initialCapital := by
    rw [bMeasure_bRunFrom]
    simp [bMeasure, bInitState, sumAlloc, sumPL]
  unfold bRun
  cases hL : rows.getLast? with
  | none =>
      have hnil : rows = [] := List.getLast?_eq_none_iff.mp hL
      subst hnil
      simp [bRunFrom, bInitState, sumPL]
  | some lastRow =>
      dsimp only
      have hB : bBooked (bFinalStep (rows.length - 1) lastRow.price
          (bRunFrom cfg 0 rows (bInitState cfg))) =
          bBooked (bRunFrom cfg 0 rows (bInitState cfg)) +
            sumAlloc (bRunFrom cfg 0 rows (bInitState cfg)).positions := by
        unfold bFinalStep
        exact bBooked_bFinalStep (rows.length - 1) lastRow.price _ _
      unfold bMeasure at hMain
      unfold bBooked at hB
      linarith

/-! ## C1: at most one open position per symbol -/

lemma keyCount_ainsert_ne {α : Type} (l : List (String × α)) (key k2 : String)
    (v : α) (h : k2 ≠ key) : keyCount (ainsert l key v) k2 = keyCount l k2 := by
  have hks : key ≠ k2 := fun hk => h hk.symm
  induction l with
  | nil => simp [ainsert, keyCount, hks]
  | cons kv rest ih =>
      obtain ⟨k, w⟩ := kv
      by_cases hk : k = key
      · subst hk
        simp [ainsert, keyCount, hks]
      · simp [ainsert, hk, keyCount, ih]

lemma keyCount_ainsert_le {α : Type} (l : List (String × α)) (key : String)
    (v : α) (k2 : String) (h : keyCount l k2 ≤ 1) :
    keyCount (ainsert l key v) k2 ≤ 1 := by
  induction l with
  | nil =>
      by_cases hk : key = k2 <;> simp [ainsert, keyCount, hk]
  | cons kv rest ih =>
      obtain ⟨k, w⟩ := kv
      by_cases hk : k = key
      · subst hk
        simpa [ainsert, keyCount] using h
      · by_cases hk2 : k = k2
        · simp only [keyCount, if_pos hk2] at h
          have hrest : keyCount rest k2 = 0 := by omega
          have hne : k2 ≠ key := by rw [← hk2]; exact hk
          simp only [ainsert, if_neg hk, keyCount, if_pos hk2,
            keyCount_ainsert_ne rest key k2 v hne, hrest]
          omega
        · simp only [keyCount, if_neg hk2, Nat.zero_add] at h
          have h2 := ih h
          simpa [ainsert, if_neg hk, keyCount, if_neg hk2] using h2

lemma keyCount_aerase_le {α : Type} (l : List (String × α)) (key k2 : String) :
    keyCount (aerase l key) k2 ≤ keyCount l k2 := by
  induction l with
  | nil => simp [aerase]
  | cons kv rest ih =>
      obtain ⟨k, w⟩ := kv
      by_cases hk : k = key
      · subst hk
        simp [aerase, keyCount]
      · simp only [aerase, if_neg hk, keyCount]
        omega

/-- The entry branch either leaves the store alone or writes the symbol's
own key. -/
lemma entryStep_active_shape (cfg : BotConfig) (now cash : ℚ) (symbol : String)
    (data : SymbolData) (st : BotState) :
    (entryStep cfg now cash symbol data st).1.active_trades =
        st.active_trades ∨
    ∃ tr, (entryStep cfg now cash symbol data st).1.active_trades =
        ainsert st.active_trades symbol tr := by
  unfold entryStep
  cases data.price with
  | none => left; rfl
  | some p =>
      dsimp only
      split
      · left; rfl
      · split
        · right; exact ⟨_, rfl⟩
        · split
          · right; exact ⟨_, rfl⟩
          · left; rfl

/-- The exit branch either holds or erases the symbol's own key. -/
lemma exitStep_active_shape (cfg : BotConfig) (now : ℚ) (symbol : String)
    (data : SymbolData) (trade : LiveTrade) (st st1 : BotState)
    (ev : List Event) (h : exitStep cfg now symbol data trade st = .ok (st1, ev)) :
    st1.active_trades = st.active_trades ∨
    st1.active_trades = aerase st.active_trades symbol := by
  unfold exitStep at h
  cases hp : data.price with
  | none => rw [hp] at h; exact absurd h (by simp)
  | some p =>
      rw [hp] at h
      dsimp only at h
      split at h
      · cases hr : liveExitReason cfg trade.direction
            ((p - trade.entry_price) / trade.entry_price) with
        | none =>
            rw [hr] at h
            simp only [Except.ok.injEq, Prod.mk.injEq] at h
            left; rw [← h.1]
        | some reason =>
            rw [hr] at h
            simp only [Except.ok.injEq, Prod.mk.injEq] at h
            right; rw [← h.1]
      · exact absurd h (by simp)

/-- A successful per-symbol step changes the position store only at the
symbol's own key: it is left alone, overwritten, or erased. -/
lemma symbolStep_active_shape (cfg : BotConfig) (now cash : ℚ)
    (symbol : String) (data : SymbolData) (st st1 : BotState) (ev : List Event)
    (h : symbolStep cfg now cash symbol data st = .ok (st1, ev)) :
    st1.active_trades = st.active_trades ∨
    (∃ tr, st1.active_trades = ainsert st.active_trades symbol tr) ∨
    st1.active_trades = aerase st.active_trades symbol := by
  unfold symbolStep at h
  split at h
  · simp only [Except.ok.injEq, Prod.mk.injEq] at h
    left; rw [← h.1]
  · split at h
    · simp only [Except.ok.injEq, Prod.mk.injEq] at h
      left; rw [← h.1]
    · split at h
      · simp only [Except.ok.injEq, Prod.mk.injEq] at h
        left; rw [← h.1]
      · split at h
        · exact absurd h (by simp)
        · cases hA : alookup st.active_trades symbol with
          | some trade =>
              rw [hA] at h
              dsimp only at h
              split at h
              · rcases exitStep_active_shape cfg now symbol data trade st st1 ev h
                  with h1 | h1
                · left; exact h1
                · right; right; exact h1
              · simp only [Except.ok.injEq] at h
                have h' : (entryStep cfg now cash symbol data st).1 = st1 := by
                  rw [h]
                rcases entryStep_active_shape cfg now cash symbol data st
                  with h1 | ⟨tr, h1⟩
                · left; rw [← h']; exact h1
                · right; left; exact ⟨tr, by rw [← h']; exact h1⟩
          | none =>
              rw [hA] at h
              dsimp only at h
              simp only [Except.ok.injEq] at h
              have h' : (entryStep cfg now cash symbol data st).1 = st1 := by
                rw [h]
              rcases entryStep_active_shape cfg now cash symbol data st
                with h1 | ⟨tr, h1⟩
              · left; rw [← h']; exact h1
              · right; left; exact ⟨tr, by rw [← h']; exact h1⟩

lemma symbolStep_keyCount_le (cfg : BotConfig) (now cash : ℚ) (symbol : String)
    (data : SymbolData) (st st1 : BotState) (ev : List Event)
    (h : symbolStep cfg now cash symbol data st = .ok (st1, ev))
    (hc : ∀ s, keyCount st.active_trades s ≤ 1) :
    ∀ s, keyCount st1.active_trades s ≤ 1 := by
  intro s
  rcases symbolStep_active_shape cfg now cash symbol data st st1 ev h with
    heq | ⟨tr, heq⟩ | heq
  · rw [heq]; exact hc s
  · rw [heq]; exact keyCount_ainsert_le st.active_trades symbol tr s (hc s)
  · rw [heq]
    exact le_trans (keyCount_aerase_le st.active_trades symbol s) (hc s)

/-- C1 (amended): in the live loop, at most one open position exists per
symbol at every point: the `active_trades` store keyed by symbol never
holds two records for the same symbol, over arbitrary cycles — entries
only overwrite the symbol's own key and exits erase it.  (The backtest
variant violates the invariant; see the counterexample.) -/
theorem c1_live_at_most_one_position_per_symbol (cfg : BotConfig)
    (now cash : ℚ) :
    ∀ (syms : List (String × SymbolData)) (st : BotState),
      (∀ s, keyCount st.active_trades s ≤ 1) →
      ∀ s, keyCount
        (processSymbols cfg now cash syms st).state.active_trades s ≤ 1 := by
  intro syms
  induction syms with
  | nil => intro st hc s; exact hc s
  | cons pair rest ih =>
      obtain ⟨symbol, data⟩ := pair
      intro st hc s
      simp only [processSymbols]
      cases hS : symbolStep cfg now cash symbol data st with
      | error e => exact hc s
      | ok out =>
          obtain ⟨st1, ev⟩ := out
          dsimp only
          exact ih st1
            (symbolStep_keyCount_le cfg now cash symbol data st st1 ev hS hc) s

/-- Witness for the amended C1: a concrete cycle over one symbol starting
from the empty state keeps the per-symbol count at most one. -/
theorem c1_live_at_most_one_position_per_symbol_witness :
    keyCount (processSymbols liveConfig 0 1000 [("A", dGoodLong)]
      { active_trades := [], cooldown_tracker := [] }).state.active_trades
      "A" ≤ 1 :=
  c1_live_at_most_one_position_per_symbol liveConfig 0 1000
    [("A", dGoodLong)] { active_trades := [], cooldown_tracker := [] }
    (fun s => by simp [keyCount]) "A"

/-- Counterexample to C1 as stated: in the backtest variant two positions
are simultaneously open after two rows that both fire the entry signal
(probability 0.6, predicted return 0.01, price 100 twice): the entry
logic appends a new position without checking the open list, so the
at-most-one invariant fails in the offline variant. -/
theorem c1_backtest_two_open_positions :
    (bRunFrom btConfig 0
      [{ price := 100, prob := 3/5, predReturn := 1/100 },
       { price := 100, prob := 3/5, predReturn := 1/100 }]
      (bInitState btConfig)).positions.length = 2 := by
  norm_num +decide [bRunFrom, bStepRow, bProcessExits, bEntry, bStepPosition,
    bExitReason, bChange, bInitState, btConfig]

/-! ## C2: short-position stop-loss / take-profit semantics -/

/-- C2 (code bug in the backtest's short branch): for a short position
entered at 100 and now priced 92 the price fell 8% — a favorable move —
and `change = (entry - price) / entry = 2/25`.  The claim (and the spec's
rule, embedded as `specShortExitReason`) triggers nothing at this point:
stop-loss demands `change <= -0.06` and take-profit demands
`change >= 0.1`.  `backtest.py` instead emits `stop_loss` because its
short branch compares `change >= STOP_LOSS_PCT`, labelling an 8% profit a
stop-loss (and symmetrically a 10% loss a take-profit).  The live loop
agrees with the claim: on its mirrored change `(92 - 100)/100 = -2/25` it
holds. -/
theorem c2_backtest_short_exit_divergence :
    bChange "short" 100 92 = 2/25 ∧
    bExitReason btConfig "short" (bChange "short" 100 92) (1/2) 0 =
      some "stop_loss" ∧
    specShortExitReason btConfig.stopLossPct btConfig.takeProfitPct
      (bChange "short" 100 92) = none ∧
    liveExitReason liveConfig "short" ((92 - 100) / 100) = none := by
  norm_num +decide [bChange, bExitReason, specShortExitReason,
    liveExitReason, btConfig, liveConfig]

/-! ## C4: exit-condition precedence -/

/-- C4: in both exit evaluations the decision resolves by the fixed
precedence stop-loss first, then take-profit, then (in the backtest)
signal-reversal: whenever the higher-priority condition holds the emitted
reason is its reason, regardless of the lower-priority conditions, and
the evaluation emits at most one reason. -/
theorem c4_exit_precedence (bc : BConfig) (lc : BotConfig)
    (change prob predReturn : ℚ) :
    (change ≤ -bc.stopLossPct →
      bExitReason bc "long" change prob predReturn = some "stop_loss") ∧
    (¬change ≤ -bc.stopLossPct → change ≥ bc.takeProfitPct →
      bExitReason bc "long" change prob predReturn = some "take_profit") ∧
    (¬change ≤ -bc.stopLossPct → ¬change ≥ bc.takeProfitPct →
      prob < 1 - bc.clfThreshold → predReturn < -bc.regThreshold →
      bExitReason bc "long" change prob predReturn = some "signal_reverse") ∧
    (change ≥ bc.stopLossPct →
      bExitReason bc "short" change prob predReturn = some "stop_loss") ∧
    (¬change ≥ bc.stopLossPct → change ≤ -bc.takeProfitPct →
      bExitReason bc "short" change prob predReturn = some "take_profit") ∧
    (¬change ≥ bc.stopLossPct → ¬change ≤ -bc.takeProfitPct →
      prob > bc.clfThreshold → predReturn > bc.regThreshold →
      bExitReason bc "short" change prob predReturn = some "signal_reverse") ∧
    (change ≤ -lc.stopLossPct →
      liveExitReason lc "long" change = some "long_stop_loss") ∧
    (¬change ≤ -lc.stopLossPct → change ≥ lc.takeProfitPct →
      liveExitReason lc "long" change = some "long_take_profit") ∧
    (change ≥ lc.stopLossPct →
      liveExitReason lc "short" change = some "short_stop_loss") ∧
    (¬change ≥ lc.stopLossPct → change ≤ -lc.takeProfitPct →
      liveExitReason lc "short" change = some "short_take_profit") := by
  refine ⟨?_, ?_, ?_, ?_, ?_, ?_, ?_, ?_, ?_, ?_⟩ <;>
    intros <;> simp [bExitReason, liveExitReason, *]

/-- Witness for C4 at a point where take-profit and signal-reversal hold
simultaneously for a long position (change 0.11, probability 0.1,
predicted return -0.01 under the backtest constants): the emitted reason
is the higher-priority `take_profit`. -/
theorem c4_exit_precedence_witness :
    bExitReason btConfig "long" (11/100) (1/10) (-(1/100)) =
      some "take_profit" :=
  (c4_exit_precedence btConfig liveConfig (11/100) (1/10) (-(1/100))).2.1
    (by norm_num [btConfig]) (by norm_num [btConfig])

/-! ## C5: long/short tie-break across evaluation paths -/

/-- C5 (amended): in the live entry logic, whenever the long condition
and the hard-coded short condition hold simultaneously the signal is
long — the long branch is tested first.  In the batch strategy evaluation
the hard-coded thresholds (long needs probability above 0.58, short below
0.25) make the masks mutually exclusive, so no tie can arise from any
probability/return pair there; its overwrite mechanism, exercised on an
overlapping mask, resolves to short instead (see the counterexample). -/
theorem c5_live_tiebreak_long (cfg : BotConfig) (prob predReturn : ℚ) :
    (prob > cfg.clfThreshold → predReturn > cfg.regThreshold →
      liveEntrySignal cfg prob predReturn = "long") ∧
    (cs_long_mask prob predReturn = true →
      cs_short_mask prob predReturn = false) := by
  constructor
  · intro h1 h2
    simp [liveEntrySignal, h1, h2]
  · intro h
    simp only [cs_long_mask, Bool.and_eq_true, decide_eq_true_eq] at h
    unfold cs_short_mask
    rw [decide_eq_false (show ¬prob < 1/4 by linarith [h.1])]
    rw [Bool.false_and]

/-- Witness for C5 at a genuine tie: with parameter thresholds 0.2 and
-0.01, probability 0.22 and predicted return -0.008 satisfy both the long
and the hard-coded short entry conditions, and the live signal is long. -/
theorem c5_live_tiebreak_long_witness :
    liveEntrySignal tieConfig (11/50) (-(1/125)) = "long" :=
  (c5_live_tiebreak_long tieConfig (11/50) (-(1/125))).1
    (by norm_num [tieConfig]) (by norm_num [tieConfig])

/-- Counterexample to C5 as stated: the batch evaluation's resolution
mechanism does not tie-break to long — a row carrying both masks ends up
`short`, because `direction[short_mask] = 'short'` is assigned after
`direction[long_mask] = 'long'`. -/
theorem c5_batch_tiebreak_is_short :
    cs_direction true true = "short" ∧ cs_direction true true ≠ "long" := by
  decide

/-! ## C6: failure isolation within a cycle -/

/-- C6 (amended): an exception raised while evaluating or acting on one
symbol is caught — but by the cycle-level handler, not per symbol (only
the price extraction of the entry branch has a per-symbol handler).  When
the symbols before the failing one succeeded, the cycle ends at the
failing symbol with exactly the state and side effects produced by those
earlier symbols: the remaining watched symbols are NOT processed in that
cycle; no symbol's active state is removed by the failure, the error is
recorded for the log, and the cycle function still returns (the process
does not terminate). -/
theorem c6_cycle_aborts_at_first_failure (cfg : BotConfig) (now cash : ℚ) :
    ∀ (pre : List (String × SymbolData)) (symbol : String) (data : SymbolData)
      (post : List (String × SymbolData)) (st : BotState) (e : BotError),
      (processSymbols cfg now cash pre st).err = none →
      symbolStep cfg now cash symbol data
        (processSymbols cfg now cash pre st).state = .error e →
      processSymbols cfg now cash (pre ++ (symbol, data) :: post) st =
        { state := (processSymbols cfg now cash pre st).state,
          events := (processSymbols cfg now cash pre st).events,
          err := some e } := by
  intro pre
  induction pre with
  | nil =>
      intro symbol data post st e h0 hS
      simp only [processSymbols] at hS ⊢
      simp only [List.nil_append, processSymbols, hS]
  | cons pair rest ih =>
      obtain ⟨s0, d0⟩ := pair
      intro symbol data post st e h0 hS
      cases hS0 : symbolStep cfg now cash s0 d0 st with
      | error e0 =>
          simp only [processSymbols, hS0] at h0
          simp at h0
      | ok out =>
          obtain ⟨st1, ev⟩ := out
          simp only [List.cons_append, processSymbols, hS0, List.append_eq]
            at h0 hS ⊢
          rw [ih symbol data post st1 e h0 hS]

/-- Witness for C6: the cycle `[A with a missing model feature, B with a
valid long entry]` starting from the empty state ends at A with nothing
done and the feature-mismatch exception recorded. -/
theorem c6_cycle_aborts_at_first_failure_witness :
    processSymbols liveConfig 0 1000 [("A", dFeatureBad), ("B", dGoodLong)]
      { active_trades := [], cooldown_tracker := [] } =
      { state := { active_trades := [], cooldown_tracker := [] },
        events := [], err := some BotError.featureMismatch } := by
  have h := c6_cycle_aborts_at_first_failure liveConfig 0 1000 []
    "A" dFeatureBad [("B", dGoodLong)]
    { active_trades := [], cooldown_tracker := [] } BotError.featureMismatch
    (by rfl)
    (by norm_num +decide [processSymbols, symbolStep, cooldownActive,
      alookup, dFeatureBad, liveConfig])
  simpa [processSymbols] using h

/-- Counterexample to C6 as stated: in the same two-symbol cycle, symbol
B's entry conditions hold (processed alone from the same state, B opens a
long position), yet after A's feature-mismatch exception the cycle
records no position for B — the remaining symbols are skipped for the
rest of the cycle instead of being processed. -/
theorem c6_remaining_symbol_not_processed :
    alookup (processSymbols liveConfig 0 1000 [("A", dFeatureBad), ("B", dGoodLong)]
      { active_trades := [], cooldown_tracker := [] }).state.active_trades
      "B" = none ∧
    alookup (processSymbols liveConfig 0 1000 [("B", dGoodLong)]
      { active_trades := [], cooldown_tracker := [] }).state.active_trades
      "B" = some { entry_price := 100, qty := 1, direction := "long",
                   entry_time := 0 } := by
  constructor
  · norm_num +decide [processSymbols, symbolStep, cooldownActive, alookup,
      dFeatureBad, liveConfig]
  · norm_num +decide [processSymbols, symbolStep, cooldownActive, alookup,
      entryStep, liveEntrySignal, liveQty, ainsert, dGoodLong, liveConfig]

/-! ## C7: cooldown gate -/

lemma alookup_ainsert_self {α : Type} (l : List (String × α)) (key : String)
    (v : α) : alookup (ainsert l key v) key = some v := by
  induction l with
  | nil => simp [ainsert, alookup]
  | cons kv rest ih =>
      obtain ⟨k, w⟩ := kv
      by_cases hk : k = key
      · subst hk
        simp [ainsert, alookup]
      · simp [ainsert, hk, alookup, ih]

/-- C7: the cooldown gate of the live loop.  First conjunct: while
`now < until` the symbol is skipped outright — no entry happens even if
the signal conditions hold, and neither state nor side effects change.
Second conjunct: as soon as `until <= now` (in particular at exactly
`now = until`, and immediately when the configured duration is zero) the
gate no longer blocks, and a symbol whose entry conditions hold opens its
position.  Third conjunct: every exit arms the gate with
`until = now + cooldown`. -/
theorem c7_cooldown_gate (cfg : BotConfig) (now cash : ℚ) (symbol : String)
    (data : SymbolData) (st : BotState) (u p : ℚ) :
    (alookup st.cooldown_tracker symbol = some u → now < u →
      symbolStep cfg now cash symbol data st = .ok (st, [])) ∧
    (alookup st.cooldown_tracker symbol = some u → u ≤ now →
      st.active_trades.length < cfg.maxTrades →
      data.histOk = true → data.featuresOk = true →
      alookup st.active_trades symbol = none →
      data.price = some p → 0 < liveQty cash p →
      data.prob > cfg.clfThreshold → data.predReturn > cfg.regThreshold →
      symbolStep cfg now cash symbol data st =
        .ok ({ active_trades := ainsert st.active_trades symbol
                 { entry_price := p, qty := liveQty cash p,
                   direction := "long", entry_time := now },
               cooldown_tracker := st.cooldown_tracker },
             [Event.submitOrder symbol (liveQty cash p) "buy" data.submitOk,
              Event.append { symbol := symbol, action := "buy", price := p,
                             qty := liveQty cash p, reason := "long_entry",
                             direction := "long" }])) ∧
    (∀ (trade : LiveTrade) (st1 : BotState) (ev : List Event),
      exitStep cfg now symbol data trade st = .ok (st1, ev) → ev ≠ [] →
      alookup st1.cooldown_tracker symbol =
        some (now + cfg.cooldownMinutes)) := by
  refine ⟨?_, ?_, ?_⟩
  · intro hu hlt
    have hc : cooldownActive st now symbol = true := by
      simp [cooldownActive, hu, hlt]
    unfold symbolStep
    rw [if_pos hc]
  · intro hu hge hmax hh hf hA hp hq hprob hpred
    have hc : cooldownActive st now symbol = false := by
      simp [cooldownActive, hu, not_lt.mpr hge]
    have hm : ¬(st.active_trades.length ≥ cfg.maxTrades ∧
        alookup st.active_trades symbol = none) := by
      intro hcontra
      exact absurd hcontra.1 (not_le.mpr hmax)
    have hsig : liveEntrySignal cfg data.prob data.predReturn = "long" := by
      simp [liveEntrySignal, hprob, hpred]
    unfold symbolStep
    rw [hc]
    simp only [Bool.false_eq_true, if_false, if_neg hm, hh, hf]
    simp only [Bool.true_eq_false, if_false, hA]
    unfold entryStep
    rw [hp]
    dsimp only
    rw [if_neg (not_le.mpr hq), if_pos hsig]
  · intro trade st1 ev h hne
    unfold exitStep at h
    cases hp2 : data.price with
    | none => rw [hp2] at h; exact absurd h (by simp)
    | some price =>
        rw [hp2] at h
        dsimp only at h
        split at h
        · cases hr : liveExitReason cfg trade.direction
              ((price - trade.entry_price) / trade.entry_price) with
          | none =>
              rw [hr] at h
              simp only [Except.ok.injEq, Prod.mk.injEq] at h
              exact absurd h.2.symm hne
          | some reason =>
              rw [hr] at h
              simp only [Except.ok.injEq, Prod.mk.injEq] at h
              rw [← h.1]
              exact alookup_ainsert_self st.cooldown_tracker symbol
                (now + cfg.cooldownMinutes)
        · exact absurd h (by simp)

/-- Witness for C7: with a cooldown entry expiring at time 5, the symbol
with valid entry data is skipped untouched at time 4 and opens its long
position at exactly time 5. -/
theorem c7_cooldown_gate_witness :
    symbolStep liveConfig 4 1000 "A" dGoodLong
      { active_trades := [], cooldown_tracker := [("A", 5)] } =
      .ok ({ active_trades := [], cooldown_tracker := [("A", 5)] }, []) ∧
    symbolStep liveConfig 5 1000 "A" dGoodLong
      { active_trades := [], cooldown_tracker := [("A", 5)] } =
      .ok ({ active_trades :=
               [("A", { entry_price := 100, qty := liveQty 1000 100,
                        direction := "long", entry_time := 5 })],
             cooldown_tracker := [("A", 5)] },
           [Event.submitOrder "A" (liveQty 1000 100) "buy" true,
            Event.append { symbol := "A", action := "buy", price := 100,
                           qty := liveQty 1000 100, reason := "long_entry",
                           direction := "long" }]) := by
  constructor
  · exact (c7_cooldown_gate liveConfig 4 1000 "A" dGoodLong
      { active_trades := [], cooldown_tracker := [("A", 5)] } 5 100).1
      (by simp [alookup]) (by norm_num)
  · have h := (c7_cooldown_gate liveConfig 5 1000 "A" dGoodLong
      { active_trades := [], cooldown_tracker := [("A", 5)] } 5 100).2.1
      (by simp [alookup]) (by norm_num) (by simp [liveConfig])
      (by rfl) (by rfl) (by simp [alookup]) (by rfl)
      (by norm_num [liveQty]) (by norm_num [dGoodLong, liveConfig])
      (by norm_num [dGoodLong, liveConfig])
    simpa [ainsert, dGoodLong] using h

/-! ## C8: non-positive quantity skips the entry -/

/-- C8: whenever the computed quantity
`floor(0.1 * cash / current_price)` is non-positive for a symbol that is
not active, the step leaves the state unchanged and produces no side
effects at all: no order submission, no position, no trade-log row, and
no exception. -/
theorem c8_nonpositive_qty_skips_entry (cfg : BotConfig) (now cash : ℚ)
    (symbol : String) (data : SymbolData) (st : BotState) (p : ℚ)
    (hf : data.featuresOk = true)
    (hA : alookup st.active_trades symbol = none)
    (hp : data.price = some p)
    (hq : liveQty cash p ≤ 0) :
    symbolStep cfg now cash symbol data st = .ok (st, []) := by
  unfold symbolStep
  split
  · rfl
  · split
    · rfl
    · split
      · rfl
      · split
        case isTrue h => rw [hf] at h; exact Bool.noConfusion h
        case isFalse h =>
          rw [hA]
          unfold entryStep
          rw [hp]
          dsimp only
          rw [if_pos hq]

/-- Witness for C8: cash 5 at price 100 gives quantity
`floor(0.5 / 100) = 0`, and the step over entry-signal data leaves the
empty state unchanged with no events. -/
theorem c8_nonpositive_qty_skips_entry_witness :
    symbolStep liveConfig 0 5 "A" dGoodLong
      { active_trades := [], cooldown_tracker := [] } =
      .ok ({ active_trades := [], cooldown_tracker := [] }, []) :=
  c8_nonpositive_qty_skips_entry liveConfig 0 5 "A" dGoodLong
    { active_trades := [], cooldown_tracker := [] } 100
    (by rfl) (by rfl) (by rfl) (by norm_num [liveQty])

/-! ## C9: ledger rows follow their submissions -/

lemma LedgerOk_append {a b : List Event} (ha : LedgerOk a) (hb : LedgerOk b) :
    LedgerOk (a ++ b) := by
  induction ha with
  | nil => exact hb
  | entryPair symbol qty side ok r rest h1 h2 h3 _ ih =>
      exact .entryPair symbol qty side ok r _ h1 h2 h3 ih
  | closePair symbol ok r rest h1 h2 _ ih =>
      exact .closePair symbol ok r _ h1 h2 ih

lemma entryStep_ledger (cfg : BotConfig) (now cash : ℚ) (symbol : String)
    (data : SymbolData) (st : BotState) :
    LedgerOk (entryStep cfg now cash symbol data st).2 := by
  unfold entryStep
  cases data.price with
  | none => exact .nil
  | some p =>
      dsimp only
      split
      · exact .nil
      · split
        · exact .entryPair symbol _ "buy" data.submitOk _ [] rfl rfl rfl .nil
        · split
          · exact .entryPair symbol _ "sell" data.submitOk _ [] rfl rfl rfl .nil
          · exact .nil

lemma exitStep_ledger (cfg : BotConfig) (now : ℚ) (symbol : String)
    (data : SymbolData) (trade : LiveTrade) (st st1 : BotState)
    (ev : List Event)
    (h : exitStep cfg now symbol data trade st = .ok (st1, ev)) :
    LedgerOk ev := by
  unfold exitStep at h
  cases hp : data.price with
  | none => rw [hp] at h; exact absurd h (by simp)
  | some price =>
      rw [hp] at h
      dsimp only at h
      split at h
      · cases hr : liveExitReason cfg trade.direction
            ((price - trade.entry_price) / trade.entry_price) with
        | none =>
            rw [hr] at h
            simp only [Except.ok.injEq, Prod.mk.injEq] at h
            rw [← h.2]
            exact .nil
        | some reason =>
            rw [hr] at h
            simp only [Except.ok.injEq, Prod.mk.injEq] at h
            rw [← h.2]
            exact .closePair symbol data.submitOk _ [] rfl rfl .nil
      · exact absurd h (by simp)

lemma symbolStep_ledger (cfg : BotConfig) (now cash : ℚ) (symbol : String)
    (data : SymbolData) (st st1 : BotState) (ev : List Event)
    (h : symbolStep cfg now cash symbol data st = .ok (st1, ev)) :
    LedgerOk ev := by
  unfold symbolStep at h
  split at h
  · simp only [Except.ok.injEq, Prod.mk.injEq] at h
    rw [← h.2]; exact .nil
  · split at h
    · simp only [Except.ok.injEq, Prod.mk.injEq] at h
      rw [← h.2]; exact .nil
    · split at h
      · simp only [Except.ok.injEq, Prod.mk.injEq] at h
        rw [← h.2]; exact .nil
      · split at h
        · exact absurd h (by simp)
        · cases hA : alookup st.active_trades symbol with
          | some trade =>
              rw [hA] at h
              dsimp only at h
              split at h
              · exact exitStep_ledger cfg now symbol data trade st st1 ev h
              · simp only [Except.ok.injEq] at h
                have h' : (entryStep cfg now cash symbol data st).2 = ev := by
                  rw [h]
                rw [← h']
                exact entryStep_ledger cfg now cash symbol data st
          | none =>
              rw [hA] at h
              dsimp only at h
              simp only [Except.ok.injEq] at h
              have h' : (entryStep cfg now cash symbol data st).2 = ev := by
                rw [h]
              rw [← h']
              exact entryStep_ledger cfg now cash symbol data st

/-- C9: over any cycle, the trade log obeys the write-after-decision
discipline: the event trace is a sequence of submission/append pairs, so
every order submission that returns (in particular every successful one)
has exactly one trade-log row with the matching symbol, action and
quantity appended right after it, in submission order, and no row is
appended without its submission having returned first. -/
theorem c9_ledger_after_submission (cfg : BotConfig) (now cash : ℚ) :
    ∀ (syms : List (String × SymbolData)) (st : BotState),
      LedgerOk (processSymbols cfg now cash syms st).events := by
  intro syms
  induction syms with
  | nil => intro st; exact .nil
  | cons pair rest ih =>
      obtain ⟨symbol, data⟩ := pair
      intro st
      simp only [processSymbols]
      cases hS : symbolStep cfg now cash symbol data st with
      | error e => exact .nil
      | ok out =>
          obtain ⟨st1, ev⟩ := out
          dsimp only
          exact LedgerOk_append
            (symbolStep_ledger cfg now cash symbol data st st1 ev hS)
            (ih st1)

/-! ## C3: position state on order-submission failure -/

/-- C3 (code bug): the per-symbol step never inspects the gateway's
result — `alpaca_api.submit_order` and `close_position` swallow every
exception and return `None`, and `bot.py` ignores the return value.  On a
cycle where the gateway fails (both submission events below carry
`ok = false`), a failed entry still records the position in
`active_trades`, and a failed close still removes it and arms the
cooldown, exactly as on success — the local state desyncs from the
broker, contradicting the claim's contract. -/
theorem c3_state_mutates_despite_gateway_failure :
    symbolStep liveConfig 0 1000 "A" dGoodLongFail
      { active_trades := [], cooldown_tracker := [] } =
      .ok ({ active_trades :=
               [("A", { entry_price := 100, qty := 1,
                        direction := "long", entry_time := 0 })],
             cooldown_tracker := [] },
           [Event.submitOrder "A" 1 "buy" false,
            Event.append { symbol := "A", action := "buy", price := 100,
                           qty := 1, reason := "long_entry",
                           direction := "long" }]) ∧
    symbolStep liveConfig 0 1000 "A" dStopLossFailClose
      { active_trades := [("A", tradeLongAt100)], cooldown_tracker := [] } =
      .ok ({ active_trades := [], cooldown_tracker := [("A", 0)] },
           [Event.closeReq "A" false,
            Event.append { symbol := "A", action := "close", price := 92,
                           qty := 1, reason := "long_stop_loss",
                           direction := "long" }]) := by
  constructor
  · norm_num +decide [symbolStep, entryStep, cooldownActive, alookup,
      ainsert, liveEntrySignal, liveQty, liveConfig, dGoodLongFail]
  · norm_num +decide [symbolStep, exitStep, cooldownActive, alookup,
      ainsert, aerase, liveExitReason, liveConfig, dStopLossFailClose,
      tradeLongAt100]

end TradingBot
